import Mathlib

/-!
Verification development for the FYP Navigator hybrid recommendation system.

The repository ships the React/TypeScript frontend (`Frontend/src/lib/api.ts`,
page components) and extensive backend documentation (`Backend/README.md`,
`Backend/GUI_README.md`); the Python engine modules themselves
(`recommendation_engine.py`, `inference_engine.py`, `ml_recommender.py`,
`fyp_recommender.py`, `topic_tracker.py`) are not part of the source tree.
Engine behaviour is therefore modelled from the specification (marked
`Modelled from the spec:` on each definition), while the frontend request
construction is embedded directly from `api.ts` and `History.tsx`.
-/

namespace FYP

/-- Proficiency tiers, ordered 1-4 (spec section 3, GUI_README dropdown list). -/
inductive Proficiency where
  | NOVICE
  | INTERMEDIATE
  | ADVANCED
  | EXPERT
deriving DecidableEq, Repr

/-- Numeric rank of a proficiency tier (NOVICE = 1 .. EXPERT = 4). -/
def Proficiency.rank : Proficiency → Nat
  | .NOVICE => 1
  | .INTERMEDIATE => 2
  | .ADVANCED => 3
  | .EXPERT => 4

/-- Interest levels, ordered 1-4 (spec section 3). -/
inductive InterestLevel where
  | LOW
  | MEDIUM
  | HIGH
  | VERY_HIGH
deriving DecidableEq, Repr

/-- Numeric rank of an interest level (LOW = 1 .. VERY_HIGH = 4). -/
def InterestLevel.rank : InterestLevel → Nat
  | .LOW => 1
  | .MEDIUM => 2
  | .HIGH => 3
  | .VERY_HIGH => 4

/-- A named skill held at some proficiency (spec section 3). -/
structure Skill where
  name : String
  proficiency : Proficiency
deriving DecidableEq, Repr

/-- An interest in a domain at some level (spec section 3). -/
structure Interest where
  domain : String
  level : InterestLevel
deriving DecidableEq, Repr

/-- Student profile (spec section 3).  Free-text fields are strings; CGPA is a
rational so that the relaxed-mode threshold arithmetic is exact. -/
structure StudentProfile where
  id : String
  name : String
  cgpa : ℚ
  major : String
  year : Nat
  maxWeeklyHours : Nat
  preferredTeamSize : Nat
  skills : List Skill
  interests : List Interest
  completedCourses : List String
  preferredDomains : List String
deriving DecidableEq, Repr

/-- Catalog topic (spec section 3).  The free-text description is embedded as
its token list, which is the form the similarity engine consumes. -/
structure Topic where
  id : String
  title : String
  description : List String
  domain : String
  difficulty : Nat
  minCgpa : ℚ
  requiredSkills : List (String × Proficiency)
  requiredCourses : List String
  estimatedWeeklyHours : Nat
  teamSizeMin : Nat
  teamSizeMax : Nat
deriving DecidableEq, Repr

/-! ### Eligibility filter (spec section 4.1) -/

/-- Modelled from the spec: relaxed mode subtracts one proficiency tier from a
requirement, with a floor at NOVICE (spec section 4.1, item b). -/
def lowerTier : Proficiency → Proficiency
  | .NOVICE => .NOVICE
  | .INTERMEDIATE => .NOVICE
  | .ADVANCED => .INTERMEDIATE
  | .EXPERT => .ADVANCED

/-- Modelled from the spec: the proficiency threshold actually compared against,
relaxed mode lowering the requirement by one tier. -/
def effectiveRequiredProf (relaxed : Bool) (p : Proficiency) : Proficiency :=
  if relaxed then lowerTier p else p

/-- Modelled from the spec: the CGPA threshold actually compared against,
relaxed mode subtracting 0.5 with a floor at 0.0 (spec section 4.1, item c). -/
def effectiveMinCgpa (relaxed : Bool) (c : ℚ) : ℚ :=
  if relaxed then max 0 (c - 1/2) else c

/-- The proficiency at which the student holds a named skill, if any
(skills are keyed by name). -/
def studentProficiency (s : StudentProfile) (skillName : String) : Option Proficiency :=
  (s.skills.find? (fun sk => sk.name = skillName)).map Skill.proficiency

/-- Whether the student holds `skillName` at proficiency at least `req`. -/
def hasSkillAt (s : StudentProfile) (skillName : String) (req : Proficiency) : Bool :=
  match studentProficiency s skillName with
  | some p => req.rank ≤ p.rank
  | none => false

/-- Modelled from the spec: course check — every required course must be in the
student's completed set (spec section 4.1, item a). -/
def courseCheck (s : StudentProfile) (t : Topic) : Bool :=
  t.requiredCourses.all (fun c => s.completedCourses.contains c)

/-- Modelled from the spec: skill check — for every required skill the student
must possess it at proficiency at least the (possibly relaxed) required level
(spec section 4.1, item b). -/
def skillCheck (s : StudentProfile) (t : Topic) (relaxed : Bool) : Bool :=
  t.requiredSkills.all (fun p => hasSkillAt s p.1 (effectiveRequiredProf relaxed p.2))

/-- Modelled from the spec: CGPA check — student CGPA at least the (possibly
relaxed) topic minimum (spec section 4.1, item c). -/
def cgpaCheck (s : StudentProfile) (t : Topic) (relaxed : Bool) : Bool :=
  effectiveMinCgpa relaxed t.minCgpa ≤ s.cgpa

/-- Modelled from the spec: a topic passes only if all three checks pass — a
hard gate, no partial credit (spec section 4.1). -/
def eligible (s : StudentProfile) (t : Topic) (relaxed : Bool) : Bool :=
  courseCheck s t && skillCheck s t relaxed && cgpaCheck s t relaxed

/-- Modelled from the spec: `filterEligible(student, topics, relaxed)` returns
the topics passing the hard gate (spec section 4.1). -/
def filterEligible (s : StudentProfile) (topics : List Topic) (relaxed : Bool) : List Topic :=
  topics.filter (fun t => eligible s t relaxed)

/-! ### Scoring (spec section 4.2) -/

/-- Clamp a rational to the unit interval.  Spec section 7: any internal
computation that would leave [0,1] is clamped at the scoring boundary. -/
def clamp01 (x : ℚ) : ℚ := max 0 (min 1 x)

/-- Modelled from the spec: interest overlap component — domain match weighted
by the interest level, normalised by the top rank (spec section 4.2). -/
def interestComponent (s : StudentProfile) (t : Topic) : ℚ :=
  match s.interests.find? (fun i => i.domain = t.domain) with
  | some i => (i.level.rank : ℚ) / 4
  | none => 0

/-- Modelled from the spec: per-skill proficiency surplus
(possessed level minus required level), shifted and scaled into [0,1];
a missing skill counts as rank 0 (spec section 4.2). -/
def surplusNorm (s : StudentProfile) (req : String × Proficiency) : ℚ :=
  let pos : Int := ((studentProficiency s req.1).map Proficiency.rank).getD 0
  clamp01 ((((pos - (req.2.rank : Int)) : ℚ) + 3) / 6)

/-- Modelled from the spec: skill-proficiency surplus summed and normalised
across the required skills; vacuously full on a topic with no skill
requirements (spec section 4.2). -/
def skillComponent (s : StudentProfile) (t : Topic) : ℚ :=
  if t.requiredSkills.isEmpty then 1
  else (t.requiredSkills.map (surplusNorm s)).sum / (t.requiredSkills.length : ℚ)

/-- The course-to-skills inference table: an externally supplied configuration
mapping a course name to the skills it is presumed to confer (spec sections
4.3 and 9). -/
def CourseSkillTable := List (String × List String)

/-- The skill names a completed course is presumed to confer. -/
def inferredSkillNames (table : CourseSkillTable) (course : String) : List String :=
  ((table.find? (fun p => p.1 = course)).map Prod.snd).getD []

/-- Modelled from the spec: the completed courses related to a topic —
conferring one of the topic's required skills — that the topic does not itself
require (spec section 4.2, course-completion bonus pool). -/
def relatedCourses (table : CourseSkillTable) (t : Topic) : List String :=
  (table.map Prod.fst).filter (fun c =>
    !(t.requiredCourses.contains c) &&
      (inferredSkillNames table c).any (fun n => t.requiredSkills.any (fun p => p.1 = n)))

/-- Modelled from the spec: course-completion bonus — the fraction of
non-required-but-related courses the student has completed (spec section 4.2). -/
def courseComponent (table : CourseSkillTable) (s : StudentProfile) (t : Topic) : ℚ :=
  if (relatedCourses table t).isEmpty then 0
  else (((relatedCourses table t).countP (fun c => s.completedCourses.contains c)) : ℚ)
    / ((relatedCourses table t).length : ℚ)

/-- Modelled from the spec: default interest weight — dominant (spec section
4.2; the exact constants are tunable defaults, spec section 9). -/
def interestWeight : ℚ := 1/2

/-- Modelled from the spec: default skill weight — secondary. -/
def skillWeight : ℚ := 3/10

/-- Modelled from the spec: default course-bonus weight.  The three weights
sum to 1 so the combined score cannot exceed 1 by construction. -/
def courseWeight : ℚ := 1/5

/-- Modelled from the spec: `score(student, topic)` — the weighted combination
of interest overlap, skill surplus and course bonus (spec section 4.2). -/
def score (table : CourseSkillTable) (s : StudentProfile) (t : Topic) : ℚ :=
  interestWeight * interestComponent s t
    + skillWeight * skillComponent s t
    + courseWeight * courseComponent table s t

/-! ### Risk and feasibility analyzer (spec section 4.3) -/

/-- Modelled from the spec: the student's effective skill set — declared skills
merged with skills inferred from completed courses at INTERMEDIATE level
(spec section 4.3). -/
def effectiveSkills (table : CourseSkillTable) (s : StudentProfile) : List Skill :=
  s.skills ++ (s.completedCourses.flatMap (fun c =>
    (inferredSkillNames table c).map (fun n => Skill.mk n Proficiency.INTERMEDIATE)))

/-- Whether some skill in the list meets the named requirement. -/
def meetsReq (skills : List Skill) (req : String × Proficiency) : Bool :=
  skills.any (fun sk => sk.name = req.1 && req.2.rank ≤ sk.proficiency.rank)

/-- Modelled from the spec: feasibility — the ratio of required skills the
student meets (through the effective skill set) to total required skills;
vacuously full when the topic requires no skills (spec section 4.3). -/
def feasibility (table : CourseSkillTable) (s : StudentProfile) (t : Topic) : ℚ :=
  if t.requiredSkills.isEmpty then 1
  else ((t.requiredSkills.countP (meetsReq (effectiveSkills table s))) : ℚ)
    / (t.requiredSkills.length : ℚ)

/-- Risk tiers (spec section 3). -/
inductive RiskLevel where
  | LOW
  | MEDIUM
  | HIGH
deriving DecidableEq, Repr

/-- Modelled from the spec: risk tier thresholds — feasibility at least 0.8 is
LOW, at least 0.5 is MEDIUM, below that HIGH (spec section 4.3). -/
def riskOf (f : ℚ) : RiskLevel :=
  if 4/5 ≤ f then .LOW else if 1/2 ≤ f then .MEDIUM else .HIGH

/-- Modelled from the spec: appended risk reasons — weekly-hours mismatch,
team-size mismatch, and any skill gap (spec section 4.3). -/
def riskReasonsOf (table : CourseSkillTable) (s : StudentProfile) (t : Topic) : List String :=
  (if s.maxWeeklyHours < t.estimatedWeeklyHours then
    ["Estimated weekly hours exceed your availability"] else [])
  ++ (if s.preferredTeamSize < t.teamSizeMin || t.teamSizeMax < s.preferredTeamSize then
    ["Preferred team size does not fit the topic team range"] else [])
  ++ (t.requiredSkills.filter (fun p => !(meetsReq (effectiveSkills table s) p))).map
    (fun p => "Skill gap: " ++ p.1)

/-! ### Explanation generator (spec section 4.5) -/

/-- Modelled from the spec: materiality threshold above which a score component
earns a sentence (spec section 4.5; the constant is a tunable default). -/
def materialityThreshold : ℚ := 1/4

/-- Modelled from the spec: deterministic template-driven match reasons, one
sentence per material score component (spec section 4.5). -/
def matchReasonsOf (table : CourseSkillTable) (s : StudentProfile) (t : Topic) : List String :=
  (if materialityThreshold ≤ interestComponent s t then
    ["Matches your interest in " ++ t.domain] else [])
  ++ (t.requiredSkills.filter (fun p => hasSkillAt s p.1 p.2)).map
    (fun p => "You meet the skill requirement for " ++ p.1)
  ++ (if materialityThreshold ≤ courseComponent table s t then
    ["Your completed related courses support this topic"] else [])

/-- Modelled from the spec: `explain` — the deterministic explanation text plus
the match and risk reason lists (spec section 4.5). -/
def explain (table : CourseSkillTable) (s : StudentProfile) (t : Topic) :
    String × List String × List String :=
  (String.intercalate ". " (matchReasonsOf table s t),
    matchReasonsOf table s t, riskReasonsOf table s t)

/-! ### Similarity fallback engine (spec section 4.4)

The spec prescribes a TF-IDF representation over the corpus of topic
descriptions plus a synthetic student document, ranked by cosine similarity.
Two representation choices keep everything inside `ℚ`: the inverse document
frequency is the ratio of corpus size to document frequency rather than its
logarithm, and cosine similarity is carried as its square
(dot squared over the product of the squared norms) — all TF-IDF weights are
nonnegative, so the squared cosine induces the same ranking and the same
[0,1] range as the cosine itself. -/

/-- Modelled from the spec: the synthetic student document built from the
student's interests, skills and preferred domains (spec section 4.4). -/
def studentDoc (s : StudentProfile) : List String :=
  s.interests.map Interest.domain ++ s.skills.map Skill.name ++ s.preferredDomains

/-- Term frequency of a term in a document. -/
def tf (d : List String) (term : String) : ℚ := (d.count term : ℚ)

/-- Document frequency of a term across a corpus. -/
def df (corpus : List (List String)) (term : String) : Nat :=
  corpus.countP (fun d => d.contains term)

/-- Modelled from the spec: inverse document frequency, represented as the
ratio of corpus size to document frequency (zero for absent terms). -/
def idf (corpus : List (List String)) (term : String) : ℚ :=
  if df corpus term = 0 then 0 else (corpus.length : ℚ) / (df corpus term : ℚ)

/-- TF-IDF weight of a term for a document relative to a corpus. -/
def tfidf (corpus : List (List String)) (d : List String) (term : String) : ℚ :=
  tf d term * idf corpus term

/-- The vocabulary of a corpus. -/
def vocab (corpus : List (List String)) : Finset String :=
  (corpus.flatten).toFinset

/-- Dot product of two documents' TF-IDF vectors over the corpus vocabulary. -/
def docDot (corpus : List (List String)) (d1 d2 : List String) : ℚ :=
  ∑ term ∈ vocab corpus, tfidf corpus d1 term * tfidf corpus d2 term

/-- Modelled from the spec: cosine similarity between two documents, carried
as its square to stay within rational arithmetic (ranking-equivalent because
every TF-IDF weight is nonnegative); zero when either vector vanishes. -/
def cosineSq (corpus : List (List String)) (d1 d2 : List String) : ℚ :=
  if docDot corpus d1 d1 = 0 ∨ docDot corpus d2 d2 = 0 then 0
  else (docDot corpus d1 d2) ^ 2 / (docDot corpus d1 d1 * docDot corpus d2 d2)

/-- Modelled from the spec: the similarity of a student to a topic — cosine
similarity between the student document and the topic description, over the
corpus of all catalog descriptions plus the student document (spec section
4.4). -/
def mlSimilarity (catalog : List Topic) (s : StudentProfile) (t : Topic) : ℚ :=
  cosineSq (catalog.map Topic.description ++ [studentDoc s]) (studentDoc s) t.description

/-! ### Ranking order and recommendation pipeline (spec sections 4.2, 4.4, 6) -/

/-- Source flag of a recommendation (spec section 3). -/
inductive SourceFlag where
  | RULE_BASED
  | ML_FALLBACK
deriving DecidableEq, Repr

/-- A scored recommendation (spec section 3). -/
structure ScoredRecommendation where
  topic : Topic
  matchScore : ℚ
  feasibilityScore : ℚ
  riskLevel : RiskLevel
  matchReasons : List String
  riskReasons : List String
  sourceFlag : SourceFlag
deriving DecidableEq, Repr

/-- Modelled from the spec: the ranking order — descending by match score,
ties broken by ascending topic identifier (spec section 4.2). -/
def RankLE (a b : ScoredRecommendation) : Prop :=
  b.matchScore < a.matchScore ∨ (a.matchScore = b.matchScore ∧ a.topic.id ≤ b.topic.id)

instance : DecidableRel RankLE := fun a b =>
  decidable_of_iff
    (b.matchScore < a.matchScore ∨ (a.matchScore = b.matchScore ∧ a.topic.id ≤ b.topic.id))
    Iff.rfl

instance : IsTotal ScoredRecommendation RankLE where
  total a b := by
    rcases lt_trichotomy a.matchScore b.matchScore with h | h | h
    · exact Or.inr (Or.inl h)
    · rcases le_total a.topic.id b.topic.id with h2 | h2
      · exact Or.inl (Or.inr ⟨h, h2⟩)
      · exact Or.inr (Or.inr ⟨h.symm, h2⟩)
    · exact Or.inl (Or.inl h)

instance : IsTrans ScoredRecommendation RankLE where
  trans a b c hab hbc := by
    rcases hab with h1 | ⟨e1, i1⟩
    · rcases hbc with h2 | ⟨e2, _⟩
      · exact Or.inl (h2.trans h1)
      · exact Or.inl (e2 ▸ h1)
    · rcases hbc with h2 | ⟨e2, i2⟩
      · exact Or.inl (e1 ▸ h2)
      · exact Or.inr ⟨e1.trans e2, i1.trans i2⟩

/-- Modelled from the spec: similarity ranking of candidate fallback topics —
descending by similarity, ties broken by ascending topic identifier for
determinism (spec section 4.4). -/
def SimLE (simf : Topic → ℚ) (a b : Topic) : Prop :=
  simf b < simf a ∨ (simf a = simf b ∧ a.id ≤ b.id)

instance (simf : Topic → ℚ) : DecidableRel (SimLE simf) := fun a b =>
  decidable_of_iff (simf b < simf a ∨ (simf a = simf b ∧ a.id ≤ b.id)) Iff.rfl

instance (simf : Topic → ℚ) : IsTotal Topic (SimLE simf) where
  total a b := by
    rcases lt_trichotomy (simf a) (simf b) with h | h | h
    · exact Or.inr (Or.inl h)
    · rcases le_total a.id b.id with h2 | h2
      · exact Or.inl (Or.inr ⟨h, h2⟩)
      · exact Or.inr (Or.inr ⟨h.symm, h2⟩)
    · exact Or.inl (Or.inl h)

instance (simf : Topic → ℚ) : IsTrans Topic (SimLE simf) where
  trans a b c hab hbc := by
    rcases hab with h1 | ⟨e1, i1⟩
    · rcases hbc with h2 | ⟨e2, _⟩
      · exact Or.inl (h2.trans h1)
      · exact Or.inl (e2 ▸ h1)
    · rcases hbc with h2 | ⟨e2, i2⟩
      · exact Or.inl (e1 ▸ h2)
      · exact Or.inr ⟨e1.trans e2, i1.trans i2⟩

/-- Modelled from the spec: the rule-based floor below which the fallback
activates (spec section 4.4, README: fewer than 3 recommendations). -/
def MIN_RECOMMENDATIONS : Nat := 3

/-- Assemble the full scored record for a topic. -/
def mkRecommendation (table : CourseSkillTable) (s : StudentProfile) (t : Topic)
    (matchScore : ℚ) (flag : SourceFlag) : ScoredRecommendation :=
  { topic := t
    matchScore := matchScore
    feasibilityScore := feasibility table s t
    riskLevel := riskOf (feasibility table s t)
    matchReasons := matchReasonsOf table s t
    riskReasons := riskReasonsOf table s t
    sourceFlag := flag }

/-- Modelled from the spec: the strictly qualified topics — the non-excluded
catalog run through the hard gate without relaxation (spec section 2). -/
def qualifiedTopics (s : StudentProfile) (catalog : List Topic)
    (excluded : List String) : List Topic :=
  filterEligible s (catalog.filter (fun t => !(excluded.contains t.id))) false

/-- Modelled from the spec: the fallback candidate pool — every non-excluded
topic not already qualified (spec section 4.4). -/
def remainingTopics (s : StudentProfile) (catalog : List Topic)
    (excluded : List String) : List Topic :=
  catalog.filter (fun t => !(excluded.contains t.id)
    && !((qualifiedTopics s catalog excluded).map Topic.id).contains t.id)

/-- Modelled from the spec: the similarity fallback — invoked only when the
qualified set is below `MIN_RECOMMENDATIONS`, it ranks the remaining topics by
similarity and selects exactly the deficit (or all that exist), each tagged
`ML_FALLBACK` with the similarity value as its match score (spec section 4.4). -/
def fallbackEntries (table : CourseSkillTable) (s : StudentProfile)
    (catalog : List Topic) (excluded : List String) : List ScoredRecommendation :=
  if MIN_RECOMMENDATIONS ≤ (qualifiedTopics s catalog excluded).length then []
  else
    ((List.insertionSort (SimLE (mlSimilarity catalog s))
        (remainingTopics s catalog excluded)).take
      (MIN_RECOMMENDATIONS - (qualifiedTopics s catalog excluded).length)).map
      (fun t => mkRecommendation table s t (mlSimilarity catalog s t) .ML_FALLBACK)

/-- Modelled from the spec: the untruncated pipeline — qualified topics scored
rule-based, fallback entries appended, the whole ranked by the deterministic
order (spec sections 2, 4.2, 4.4). -/
def recommendAll (table : CourseSkillTable) (s : StudentProfile)
    (catalog : List Topic) (excluded : List String) : List ScoredRecommendation :=
  List.insertionSort RankLE
    ((qualifiedTopics s catalog excluded).map
        (fun t => mkRecommendation table s t (score table s t) .RULE_BASED)
      ++ fallbackEntries table s catalog excluded)

/-- Modelled from the spec: `recommend` — the ranked list truncated to the
requested count only after the fallback stage has run (spec sections 4.2, 6). -/
def recommend (table : CourseSkillTable) (s : StudentProfile)
    (catalog : List Topic) (excluded : List String) (count : Nat) :
    List ScoredRecommendation :=
  (recommendAll table s catalog excluded).take count

/-! ### Availability tracker (spec sections 4.6, 6; Backend/README CSV tracking) -/

/-- One row of the selection ledger (README `selected_topics.csv`). -/
structure ClaimRecord where
  topicId : String
  studentId : String
  score : ℚ
deriving DecidableEq, Repr

/-- The availability state: the ledger of claims made so far. -/
abbrev AvailState := List ClaimRecord

/-- Whether a topic is already claimed in the ledger. -/
def isClaimed (av : AvailState) (topicId : String) : Bool :=
  av.any (fun c => c.topicId = topicId)

/-- The exclusion set exposed to recommendation requests: all claimed ids. -/
def claimedIds (av : AvailState) : List String :=
  av.map ClaimRecord.topicId

/-- Select-operation errors (spec sections 4.6 and 6). -/
inductive SelectError where
  | AlreadyClaimedError
  | UnknownTopicError
deriving DecidableEq, Repr

/-- Modelled from the spec: `select(studentId, topicId, score)` — fails with
`AlreadyClaimedError` on a claimed topic (re-claims rejected, spec section
4.6), with `UnknownTopicError` on an identifier outside the catalog (spec
section 6), and otherwise appends the claim; errors leave the ledger exactly
unchanged (spec section 7, atomicity). -/
def select (catalog : List Topic) (av : AvailState)
    (studentId topicId : String) (sc : ℚ) : Except SelectError Unit × AvailState :=
  if isClaimed av topicId then (Except.error .AlreadyClaimedError, av)
  else if !(catalog.any (fun t => t.id = topicId)) then (Except.error .UnknownTopicError, av)
  else (Except.ok (), av ++ [ClaimRecord.mk topicId studentId sc])

/-- Modelled from the spec: `clearAll` resets the ledger (spec section 4.6,
README clear_all_selections). -/
def clearAll : AvailState := []

/-- Modelled from the spec: a recommendation request reads the availability
state and excludes every claimed topic (spec sections 2 and 3). -/
def recommendForState (table : CourseSkillTable) (s : StudentProfile)
    (catalog : List Topic) (av : AvailState) (count : Nat) :
    List ScoredRecommendation :=
  recommend table s catalog (claimedIds av) count

/-! ### Frontend request construction (Frontend/src/lib/api.ts, History.tsx)

These definitions are embedded from the TypeScript source in `src/`. -/

/-- The `Student` record of `api.ts` (lines 19-29), with its nested
`Preferences`.  Nested lists of records are flattened to the fields the claims
touch; all fields of the JSON body are carried. -/
structure StudentJson where
  id : String
  name : String
  cgpa : ℚ
  major : String
  year : Nat
  skills : List Skill
  interests : List Interest
  completed_courses : List String
  max_weekly_hours : Nat
  team_size : Nat
  preferred_domains : List String
deriving DecidableEq, Repr

/-- The HTTP request body `api.createStudent` serialises (api.ts line 98):
the JavaScript spread `\x7b ...student, id: crypto.randomUUID() \x7d` copies
every field of the argument and then overwrites `id` with the freshly
generated UUID, which is received here as the `freshId` argument. -/
def createStudentBody (student : StudentJson) (freshId : String) : StudentJson :=
  { student with id := freshId }

/-- The student record `AddStudent.handleSubmit` assembles from the form state
(History.tsx lines 361-367): the spread of `formData` (which includes the
required Student ID field) extended with the collected skills, interests,
courses and preferences, then passed to `api.createStudent`. -/
def handleSubmitStudent (formData : StudentJson) (skills : List Skill)
    (interests : List Interest) (courses : List String)
    (maxWeeklyHours teamSize : Nat) (preferredDomains : List String) : StudentJson :=
  { formData with
    skills := skills
    interests := interests
    completed_courses := courses
    max_weekly_hours := maxWeeklyHours
    team_size := teamSize
    preferred_domains := preferredDomains }

/-! ### Bounds lemmas for the score components -/

lemma clamp01_nonneg (x : ℚ) : 0 ≤ clamp01 x := le_max_left 0 _

lemma clamp01_le_one (x : ℚ) : clamp01 x ≤ 1 :=
  max_le (by norm_num) (min_le_left 1 x)

lemma listSum_nonneg (l : List ℚ) (h : ∀ x ∈ l, 0 ≤ x) : 0 ≤ l.sum := by
  have := List.card_nsmul_le_sum l 0 h
  simpa using this

lemma listSum_le_length (l : List ℚ) (h : ∀ x ∈ l, x ≤ 1) : l.sum ≤ (l.length : ℚ) := by
  have := List.sum_le_card_nsmul l 1 h
  simpa using this

lemma interestComponent_nonneg (s : StudentProfile) (t : Topic) :
    0 ≤ interestComponent s t := by
  unfold interestComponent
  cases s.interests.find? (fun i => i.domain = t.domain) with
  | none => simp
  | some i => positivity

lemma interestLevel_rank_le_four (i : InterestLevel) : i.rank ≤ 4 := by
  cases i <;> simp [InterestLevel.rank]

lemma interestComponent_le_one (s : StudentProfile) (t : Topic) :
    interestComponent s t ≤ 1 := by
  unfold interestComponent
  cases s.interests.find? (fun i => i.domain = t.domain) with
  | none => norm_num
  | some i =>
      have h : (i.level.rank : ℚ) ≤ 4 := by exact_mod_cast interestLevel_rank_le_four i.level
      rw [div_le_one (by norm_num)]
      linarith

lemma skillComponent_nonneg (s : StudentProfile) (t : Topic) :
    0 ≤ skillComponent s t := by
  unfold skillComponent
  split
  · norm_num
  · apply div_nonneg
    · exact listSum_nonneg _ (by
        intro x hx
        rcases List.mem_map.1 hx with ⟨p, _, rfl⟩
        exact clamp01_nonneg _)
    · positivity

lemma skillComponent_le_one (s : StudentProfile) (t : Topic) :
    skillComponent s t ≤ 1 := by
  unfold skillComponent
  split
  · exact le_refl 1
  · rename_i hne
    have hlen : 0 < t.requiredSkills.length := by
      cases h : t.requiredSkills with
      | nil => simp [h] at hne
      | cons a l => simp [h]
    rw [div_le_one (by exact_mod_cast hlen)]
    have := listSum_le_length (t.requiredSkills.map (surplusNorm s)) (by
      intro x hx
      rcases List.mem_map.1 hx with ⟨p, _, rfl⟩
      exact clamp01_le_one _)
    simpa using this

lemma courseComponent_nonneg (table : CourseSkillTable) (s : StudentProfile) (t : Topic) :
    0 ≤ courseComponent table s t := by
  unfold courseComponent
  split
  · norm_num
  · positivity

lemma courseComponent_le_one (table : CourseSkillTable) (s : StudentProfile) (t : Topic) :
    courseComponent table s t ≤ 1 := by
  unfold courseComponent
  split
  · norm_num
  · rename_i hne
    have hlen : 0 < (relatedCourses table t).length := by
      cases h : relatedCourses table t with
      | nil => rw [h] at hne; simp at hne
      | cons a l => simp [h]
    rw [div_le_one (by exact_mod_cast hlen)]
    exact_mod_cast List.countP_le_length _

lemma score_nonneg (table : CourseSkillTable) (s : StudentProfile) (t : Topic) :
    0 ≤ score table s t := by
  have h1 := interestComponent_nonneg s t
  have h2 := skillComponent_nonneg s t
  have h3 := courseComponent_nonneg table s t
  unfold score interestWeight skillWeight courseWeight
  linarith

lemma score_le_one (table : CourseSkillTable) (s : StudentProfile) (t : Topic) :
    score table s t ≤ 1 := by
  have h1 := interestComponent_le_one s t
  have h2 := skillComponent_le_one s t
  have h3 := courseComponent_le_one table s t
  unfold score interestWeight skillWeight courseWeight
  linarith

lemma feasibility_nonneg (table : CourseSkillTable) (s : StudentProfile) (t : Topic) :
    0 ≤ feasibility table s t := by
  unfold feasibility
  split
  · norm_num
  · positivity

lemma feasibility_le_one (table : CourseSkillTable) (s : StudentProfile) (t : Topic) :
    feasibility table s t ≤ 1 := by
  unfold feasibility
  split
  · norm_num
  · rename_i hne
    have hlen : 0 < t.requiredSkills.length := by
      cases h : t.requiredSkills with
      | nil => rw [h] at hne; simp at hne
      | cons a l => simp [h]
    rw [div_le_one (by exact_mod_cast hlen)]
    exact_mod_cast List.countP_le_length _

/-! ### Bounds for the similarity value -/

lemma docDot_self_nonneg (corpus : List (List String)) (d : List String) :
    0 ≤ docDot corpus d d :=
  Finset.sum_nonneg (fun _ _ => mul_self_nonneg _)

lemma docDot_sq_le (corpus : List (List String)) (d1 d2 : List String) :
    (docDot corpus d1 d2) ^ 2 ≤ docDot corpus d1 d1 * docDot corpus d2 d2 := by
  have h := Finset.sum_mul_sq_le_sq_mul_sq (vocab corpus)
    (fun term => tfidf corpus d1 term) (fun term => tfidf corpus d2 term)
  unfold docDot
  calc (∑ term ∈ vocab corpus, tfidf corpus d1 term * tfidf corpus d2 term) ^ 2
      ≤ (∑ term ∈ vocab corpus, tfidf corpus d1 term ^ 2)
        * ∑ term ∈ vocab corpus, tfidf corpus d2 term ^ 2 := h
    _ = (∑ term ∈ vocab corpus, tfidf corpus d1 term * tfidf corpus d1 term)
        * ∑ term ∈ vocab corpus, tfidf corpus d2 term * tfidf corpus d2 term := by
          simp [sq]

lemma cosineSq_nonneg (corpus : List (List String)) (d1 d2 : List String) :
    0 ≤ cosineSq corpus d1 d2 := by
  unfold cosineSq
  split
  · norm_num
  · rename_i h
    push_neg at h
    have h1 := lt_of_le_of_ne (docDot_self_nonneg corpus d1) (Ne.symm h.1)
    have h2 := lt_of_le_of_ne (docDot_self_nonneg corpus d2) (Ne.symm h.2)
    positivity

lemma cosineSq_le_one (corpus : List (List String)) (d1 d2 : List String) :
    cosineSq corpus d1 d2 ≤ 1 := by
  unfold cosineSq
  split
  · norm_num
  · rename_i h
    push_neg at h
    have h1 := lt_of_le_of_ne (docDot_self_nonneg corpus d1) (Ne.symm h.1)
    have h2 := lt_of_le_of_ne (docDot_self_nonneg corpus d2) (Ne.symm h.2)
    rw [div_le_one (mul_pos h1 h2)]
    exact docDot_sq_le corpus d1 d2

lemma mlSimilarity_nonneg (catalog : List Topic) (s : StudentProfile) (t : Topic) :
    0 ≤ mlSimilarity catalog s t :=
  cosineSq_nonneg _ _ _

lemma mlSimilarity_le_one (catalog : List Topic) (s : StudentProfile) (t : Topic) :
    mlSimilarity catalog s t ≤ 1 :=
  cosineSq_le_one _ _ _

/-! ### Structure of the recommendation pipeline -/

lemma mem_recommendAll {table : CourseSkillTable} {s : StudentProfile}
    {catalog : List Topic} {excluded : List String} {r : ScoredRecommendation} :
    r ∈ recommendAll table s catalog excluded ↔
      r ∈ (qualifiedTopics s catalog excluded).map
          (fun t => mkRecommendation table s t (score table s t) .RULE_BASED)
        ∨ r ∈ fallbackEntries table s catalog excluded := by
  unfold recommendAll
  rw [(List.perm_insertionSort RankLE _).mem_iff, List.mem_append]

lemma mem_fallbackEntries {table : CourseSkillTable} {s : StudentProfile}
    {catalog : List Topic} {excluded : List String} {r : ScoredRecommendation}
    (hr : r ∈ fallbackEntries table s catalog excluded) :
    ∃ t ∈ remainingTopics s catalog excluded,
      r = mkRecommendation table s t (mlSimilarity catalog s t) .ML_FALLBACK := by
  unfold fallbackEntries at hr
  split at hr
  · simp at hr
  · rcases List.mem_map.1 hr with ⟨t, ht, rfl⟩
    have ht' : t ∈ List.insertionSort (SimLE (mlSimilarity catalog s))
        (remainingTopics s catalog excluded) :=
      (List.take_sublist _ _).mem ht
    exact ⟨t, (List.perm_insertionSort _ _).mem_iff.1 ht', rfl⟩

lemma recommendAll_bounds {table : CourseSkillTable} {s : StudentProfile}
    {catalog : List Topic} {excluded : List String} {r : ScoredRecommendation}
    (hr : r ∈ recommendAll table s catalog excluded) :
    (0 ≤ r.matchScore ∧ r.matchScore ≤ 1)
      ∧ 0 ≤ r.feasibilityScore ∧ r.feasibilityScore ≤ 1 := by
  rcases mem_recommendAll.1 hr with h | h
  · rcases List.mem_map.1 h with ⟨t, _, rfl⟩
    exact ⟨⟨score_nonneg table s t, score_le_one table s t⟩,
      feasibility_nonneg table s t, feasibility_le_one table s t⟩
  · rcases mem_fallbackEntries h with ⟨t, _, rfl⟩
    exact ⟨⟨mlSimilarity_nonneg catalog s t, mlSimilarity_le_one catalog s t⟩,
      feasibility_nonneg table s t, feasibility_le_one table s t⟩

/-- C1: for every student profile and every topic, the match score and the
feasibility score lie in [0,1], and every recommendation the pipeline emits —
rule-based or fallback — carries a match score and a feasibility score in
[0,1]. -/
theorem scores_in_unit_interval (table : CourseSkillTable) (s : StudentProfile)
    (t : Topic) (catalog : List Topic) (excluded : List String) (count : Nat) :
    (0 ≤ score table s t ∧ score table s t ≤ 1)
      ∧ (0 ≤ feasibility table s t ∧ feasibility table s t ≤ 1)
      ∧ ∀ r ∈ recommend table s catalog excluded count,
          (0 ≤ r.matchScore ∧ r.matchScore ≤ 1)
            ∧ 0 ≤ r.feasibilityScore ∧ r.feasibilityScore ≤ 1 := by
  refine ⟨⟨score_nonneg table s t, score_le_one table s t⟩,
    ⟨feasibility_nonneg table s t, feasibility_le_one table s t⟩, ?_⟩
  intro r hr
  exact recommendAll_bounds ((List.take_sublist _ _).mem hr)

/-- C1 witness. -/
theorem scores_in_unit_interval_witness :
    (0 ≤ score [] (StudentProfile.mk "S1" "Alice" 3 "CS" 4 20 2 [] [] [] [])
          (Topic.mk "T1" "Demo" [] "AI" 1 0 [] [] 10 1 4)
        ∧ score [] (StudentProfile.mk "S1" "Alice" 3 "CS" 4 20 2 [] [] [] [])
          (Topic.mk "T1" "Demo" [] "AI" 1 0 [] [] 10 1 4) ≤ 1)
      ∧ (0 ≤ feasibility [] (StudentProfile.mk "S1" "Alice" 3 "CS" 4 20 2 [] [] [] [])
            (Topic.mk "T1" "Demo" [] "AI" 1 0 [] [] 10 1 4)
          ∧ feasibility [] (StudentProfile.mk "S1" "Alice" 3 "CS" 4 20 2 [] [] [] [])
            (Topic.mk "T1" "Demo" [] "AI" 1 0 [] [] 10 1 4) ≤ 1)
      ∧ ∀ r ∈ recommend [] (StudentProfile.mk "S1" "Alice" 3 "CS" 4 20 2 [] [] [] [])
            [Topic.mk "T1" "Demo" [] "AI" 1 0 [] [] 10 1 4] [] 5,
          (0 ≤ r.matchScore ∧ r.matchScore ≤ 1)
            ∧ 0 ≤ r.feasibilityScore ∧ r.feasibilityScore ≤ 1 :=
  scores_in_unit_interval [] (StudentProfile.mk "S1" "Alice" 3 "CS" 4 20 2 [] [] [] [])
    (Topic.mk "T1" "Demo" [] "AI" 1 0 [] [] 10 1 4)
    [Topic.mk "T1" "Demo" [] "AI" 1 0 [] [] 10 1 4] [] 5

/-! ### Monotonicity of the eligibility filter -/

lemma lowerTier_rank_le (p : Proficiency) : (lowerTier p).rank ≤ p.rank := by
  cases p <;> simp [lowerTier, Proficiency.rank]

lemma hasSkillAt_mono {s : StudentProfile} {n : String} {req req' : Proficiency}
    (hle : req'.rank ≤ req.rank) (h : hasSkillAt s n req = true) :
    hasSkillAt s n req' = true := by
  unfold hasSkillAt at h ⊢
  cases hp : studentProficiency s n with
  | none => rw [hp] at h; exact absurd h (by simp)
  | some p =>
      rw [hp] at h
      simp only [decide_eq_true_eq] at h ⊢
      exact le_trans hle h

lemma eligible_mono {s : StudentProfile} {t : Topic} (h0 : 0 ≤ s.cgpa)
    (h : eligible s t false = true) : eligible s t true = true := by
  unfold eligible at h ⊢
  simp only [Bool.and_eq_true] at h ⊢
  refine ⟨⟨h.1.1, ?_⟩, ?_⟩
  · unfold skillCheck at h ⊢
    rw [List.all_eq_true] at h ⊢
    intro p hp
    exact hasSkillAt_mono (by simpa [effectiveRequiredProf] using lowerTier_rank_le p.2)
      (by simpa [effectiveRequiredProf] using h.1.2 p hp)
  · unfold cgpaCheck effectiveMinCgpa at h ⊢
    simp only [if_true, if_false, decide_eq_true_eq] at h ⊢
    have hc : t.minCgpa ≤ s.cgpa := h.2
    exact max_le h0 (by linarith)

/-- C5: eligibility filtering is monotonic in the relaxed flag — for a student
with an in-range (nonnegative) CGPA, every topic passing the strict gate also
passes the relaxed gate, so the relaxed qualified set contains the strict one. -/
theorem filterEligible_relaxed_superset (s : StudentProfile) (topics : List Topic)
    (h0 : 0 ≤ s.cgpa) :
    filterEligible s topics false ⊆ filterEligible s topics true := by
  intro t ht
  unfold filterEligible at ht ⊢
  rw [List.mem_filter] at ht ⊢
  exact ⟨ht.1, eligible_mono h0 ht.2⟩

/-- C5 witness. -/
theorem filterEligible_relaxed_superset_witness :
    (0 : ℚ) ≤ (3 : ℚ)
      ∧ filterEligible
          (StudentProfile.mk "S1" "Alice" 3 "CS" 4 20 2 [] [] [] [])
          [Topic.mk "T1" "Demo" [] "AI" 1 0 [] [] 10 1 4]
          false
        ⊆ filterEligible
          (StudentProfile.mk "S1" "Alice" 3 "CS" 4 20 2 [] [] [] [])
          [Topic.mk "T1" "Demo" [] "AI" 1 0 [] [] 10 1 4]
          true :=
  ⟨by norm_num,
    filterEligible_relaxed_superset
      (StudentProfile.mk "S1" "Alice" 3 "CS" 4 20 2 [] [] [] [])
      [Topic.mk "T1" "Demo" [] "AI" 1 0 [] [] 10 1 4]
      (by norm_num)⟩

/-! ### Characterisation of the relaxed thresholds -/

/-- C8: in relaxed mode the gate compares every required skill against the
requirement lowered by exactly one tier (floored at NOVICE, i.e. rank
`max 1 (rank - 1)`) and the student CGPA against the topic minimum lowered by
exactly 0.5 (floored at 0); in strict mode the unmodified thresholds are used. -/
theorem relaxed_thresholds (s : StudentProfile) (t : Topic) :
    (skillCheck s t true
        = t.requiredSkills.all (fun p => hasSkillAt s p.1 (lowerTier p.2)))
      ∧ (cgpaCheck s t true = decide (max 0 (t.minCgpa - 1/2) ≤ s.cgpa))
      ∧ (skillCheck s t false = t.requiredSkills.all (fun p => hasSkillAt s p.1 p.2))
      ∧ (cgpaCheck s t false = decide (t.minCgpa ≤ s.cgpa))
      ∧ (∀ p : Proficiency, (lowerTier p).rank = max 1 (p.rank - 1))
      ∧ lowerTier Proficiency.NOVICE = Proficiency.NOVICE := by
  refine ⟨?_, ?_, ?_, ?_, ?_, rfl⟩
  · simp [skillCheck, effectiveRequiredProf]
  · simp [cgpaCheck, effectiveMinCgpa]
  · simp [skillCheck, effectiveRequiredProf]
  · simp [cgpaCheck, effectiveMinCgpa]
  · intro p; cases p <;> simp [lowerTier, Proficiency.rank]

/-! ### Fallback invocation and deficit -/

/-- C2: the fallback is invoked only below the `MIN_RECOMMENDATIONS` floor of
3: at or above it it contributes nothing; below it it contributes exactly
`min deficit available` entries — the full deficit when enough non-excluded,
not-already-qualified topics exist, all of them otherwise, never erroring —
and every contributed entry is tagged `ML_FALLBACK`. -/
theorem fallback_deficit (table : CourseSkillTable) (s : StudentProfile)
    (catalog : List Topic) (excluded : List String) :
    (MIN_RECOMMENDATIONS ≤ (qualifiedTopics s catalog excluded).length →
        fallbackEntries table s catalog excluded = [])
      ∧ ((qualifiedTopics s catalog excluded).length < MIN_RECOMMENDATIONS →
          (fallbackEntries table s catalog excluded).length
            = min (MIN_RECOMMENDATIONS - (qualifiedTopics s catalog excluded).length)
                (remainingTopics s catalog excluded).length)
      ∧ ∀ r ∈ fallbackEntries table s catalog excluded,
          r.sourceFlag = SourceFlag.ML_FALLBACK := by
  refine ⟨?_, ?_, ?_⟩
  · intro h
    unfold fallbackEntries
    rw [if_pos h]
  · intro h
    unfold fallbackEntries
    rw [if_neg (not_le.2 h)]
    rw [List.length_map, List.length_take,
      (List.perm_insertionSort (SimLE (mlSimilarity catalog s)) _).length_eq]
  · intro r hr
    rcases mem_fallbackEntries hr with ⟨t, _, rfl⟩
    rfl

/-- C2 witness: on an empty catalog the qualified set is empty (so below the
floor), the remaining pool is empty, and the fallback contributes
`min 3 0 = 0` entries without error. -/
theorem fallback_deficit_witness :
    ((qualifiedTopics (StudentProfile.mk "S1" "Alice" 3 "CS" 4 20 2 [] [] [] [])
        [] []).length < MIN_RECOMMENDATIONS)
      ∧ ((qualifiedTopics (StudentProfile.mk "S1" "Alice" 3 "CS" 4 20 2 [] [] [] [])
            [] []).length < MIN_RECOMMENDATIONS →
          (fallbackEntries [] (StudentProfile.mk "S1" "Alice" 3 "CS" 4 20 2 [] [] [] [])
              [] []).length
            = min (MIN_RECOMMENDATIONS
                - (qualifiedTopics (StudentProfile.mk "S1" "Alice" 3 "CS" 4 20 2 [] [] [] [])
                    [] []).length)
                (remainingTopics (StudentProfile.mk "S1" "Alice" 3 "CS" 4 20 2 [] [] [] [])
                  [] []).length) :=
  ⟨by decide,
    (fallback_deficit [] (StudentProfile.mk "S1" "Alice" 3 "CS" 4 20 2 [] [] [] [])
      [] []).2.1⟩

/-! ### Truncation to the requested count -/

/-- C7: `recommend` returns at most `count` entries, exactly
`min count available` — fewer than `count` exactly when the post-fallback list
is exhausted — and the truncation is applied to the ranked list produced after
the fallback stage. -/
theorem recommend_truncation (table : CourseSkillTable) (s : StudentProfile)
    (catalog : List Topic) (excluded : List String) (count : Nat) :
    recommend table s catalog excluded count
        = (recommendAll table s catalog excluded).take count
      ∧ (recommend table s catalog excluded count).length
          = min count (recommendAll table s catalog excluded).length
      ∧ (recommend table s catalog excluded count).length ≤ count :=
  ⟨rfl, by simp [recommend], by simp [recommend]⟩

/-! ### Atomicity of topic selection -/

/-- C4: selecting an already-claimed topic fails with `AlreadyClaimedError`,
every error result leaves the ledger exactly unchanged, and a success appends
exactly the one claim and marks the topic claimed. -/
theorem select_atomic (catalog : List Topic) (av : AvailState)
    (studentId topicId : String) (sc : ℚ) :
    (isClaimed av topicId = true →
        select catalog av studentId topicId sc
          = (Except.error SelectError.AlreadyClaimedError, av))
      ∧ (∀ e, (select catalog av studentId topicId sc).1 = Except.error e →
          (select catalog av studentId topicId sc).2 = av)
      ∧ ((select catalog av studentId topicId sc).1 = Except.ok () →
          (select catalog av studentId topicId sc).2
              = av ++ [ClaimRecord.mk topicId studentId sc]
            ∧ isClaimed (select catalog av studentId topicId sc).2 topicId = true) := by
  unfold select
  by_cases h1 : isClaimed av topicId = true
  · rw [if_pos h1]
    exact ⟨fun _ => rfl, fun _ _ => rfl, fun h => by simp at h⟩
  · rw [if_neg h1]
    by_cases h2 : (!(catalog.any (fun t => t.id = topicId))) = true
    · rw [if_pos h2]
      exact ⟨fun h => absurd h h1, fun _ _ => rfl, fun h => by simp at h⟩
    · rw [if_neg h2]
      refine ⟨fun h => absurd h h1, fun e he => by simp at he, fun _ => ⟨rfl, ?_⟩⟩
      simp [isClaimed, List.any_append]

/-- C4 witness: with topic "T1" already claimed, a second claim attempt fails
with `AlreadyClaimedError` and leaves the ledger unchanged. -/
theorem select_atomic_witness :
    (isClaimed [ClaimRecord.mk "T1" "S1" 1] "T1" = true)
      ∧ (isClaimed [ClaimRecord.mk "T1" "S1" 1] "T1" = true →
          select [] [ClaimRecord.mk "T1" "S1" 1] "S2" "T1" 1
            = (Except.error SelectError.AlreadyClaimedError,
                [ClaimRecord.mk "T1" "S1" 1])) :=
  ⟨by decide, (select_atomic [] [ClaimRecord.mk "T1" "S1" 1] "S2" "T1" 1).1⟩

/-! ### Determinism of scoring and explanation -/

/-- C9: `score` and `explain` are pure functions of their inputs — two
invocations on identical inputs produce identical outputs, with no dependence
on randomness, time or hidden state. -/
theorem score_explain_deterministic (table : CourseSkillTable)
    (s₁ s₂ : StudentProfile) (t₁ t₂ : Topic) (hs : s₁ = s₂) (ht : t₁ = t₂) :
    score table s₁ t₁ = score table s₂ t₂
      ∧ explain table s₁ t₁ = explain table s₂ t₂ := by
  subst hs; subst ht; exact ⟨rfl, rfl⟩

/-- C9 witness. -/
theorem score_explain_deterministic_witness :
    (StudentProfile.mk "S1" "Alice" 3 "CS" 4 20 2 [] [] [] []
        = StudentProfile.mk "S1" "Alice" 3 "CS" 4 20 2 [] [] [] [])
      ∧ score [] (StudentProfile.mk "S1" "Alice" 3 "CS" 4 20 2 [] [] [] [])
            (Topic.mk "T1" "Demo" [] "AI" 1 0 [] [] 10 1 4)
          = score [] (StudentProfile.mk "S1" "Alice" 3 "CS" 4 20 2 [] [] [] [])
            (Topic.mk "T1" "Demo" [] "AI" 1 0 [] [] 10 1 4)
      ∧ explain [] (StudentProfile.mk "S1" "Alice" 3 "CS" 4 20 2 [] [] [] [])
            (Topic.mk "T1" "Demo" [] "AI" 1 0 [] [] 10 1 4)
          = explain [] (StudentProfile.mk "S1" "Alice" 3 "CS" 4 20 2 [] [] [] [])
            (Topic.mk "T1" "Demo" [] "AI" 1 0 [] [] 10 1 4) :=
  ⟨rfl,
    (score_explain_deterministic [] _ _ _ _ rfl rfl).1,
    (score_explain_deterministic [] _ _ _ _ rfl rfl).2⟩

/-! ### Claimed topics never reappear -/

lemma mem_qualifiedTopics_not_excluded {s : StudentProfile} {catalog : List Topic}
    {excluded : List String} {t : Topic}
    (ht : t ∈ qualifiedTopics s catalog excluded) :
    t.id ∉ excluded := by
  unfold qualifiedTopics filterEligible at ht
  rw [List.mem_filter] at ht
  have h1 := ht.1
  rw [List.mem_filter] at h1
  simpa using h1.2

lemma mem_remainingTopics_not_excluded {s : StudentProfile} {catalog : List Topic}
    {excluded : List String} {t : Topic}
    (ht : t ∈ remainingTopics s catalog excluded) :
    t.id ∉ excluded := by
  unfold remainingTopics at ht
  rw [List.mem_filter] at ht
  have := ht.2
  rw [Bool.and_eq_true] at this
  simpa using this.1

lemma mem_recommendAll_not_excluded {table : CourseSkillTable} {s : StudentProfile}
    {catalog : List Topic} {excluded : List String} {r : ScoredRecommendation}
    (hr : r ∈ recommendAll table s catalog excluded) :
    r.topic.id ∉ excluded := by
  rcases mem_recommendAll.1 hr with h | h
  · rcases List.mem_map.1 h with ⟨t, ht, rfl⟩
    exact mem_qualifiedTopics_not_excluded ht
  · rcases mem_fallbackEntries h with ⟨t, ht, rfl⟩
    exact mem_remainingTopics_not_excluded ht

lemma mem_claimedIds_of_isClaimed {av : AvailState} {topicId : String}
    (h : isClaimed av topicId = true) : topicId ∈ claimedIds av := by
  unfold isClaimed at h
  simp only [List.any_eq_true, decide_eq_true_eq] at h
  rcases h with ⟨c, hc, rfl⟩
  exact List.mem_map.2 ⟨c, hc, rfl⟩

/-- C3: in every availability state in which a topic has been claimed — and
every such state reached by any sequence of selects, until a clear-all resets
the ledger — that topic does not appear in the recommendation output of any
recommend call for any student. -/
theorem claimed_topic_not_recommended (table : CourseSkillTable)
    (s : StudentProfile) (catalog : List Topic) (av : AvailState) (count : Nat)
    (topicId : String) (h : isClaimed av topicId = true) :
    topicId ∉ (recommendForState table s catalog av count).map
      (fun r => r.topic.id) := by
  intro hmem
  rcases List.mem_map.1 hmem with ⟨r, hr, hid⟩
  have hr' : r ∈ recommendAll table s catalog (claimedIds av) :=
    (List.take_sublist _ _).mem hr
  have hfalse := mem_recommendAll_not_excluded hr'
  rw [hid] at hfalse
  exact hfalse (mem_claimedIds_of_isClaimed h)

/-- C3 witness: with "T1" claimed, it is absent from the output for another
student even though the catalog contains it and the student qualifies. -/
theorem claimed_topic_not_recommended_witness :
    (isClaimed [ClaimRecord.mk "T1" "S1" 1] "T1" = true)
      ∧ "T1" ∉ (recommendForState []
          (StudentProfile.mk "S2" "Bob" 3 "CS" 4 20 2 [] [] [] [])
          [Topic.mk "T1" "Demo" [] "AI" 1 0 [] [] 10 1 4]
          [ClaimRecord.mk "T1" "S1" 1] 5).map (fun r => r.topic.id) :=
  ⟨by decide,
    claimed_topic_not_recommended []
      (StudentProfile.mk "S2" "Bob" 3 "CS" 4 20 2 [] [] [] [])
      [Topic.mk "T1" "Demo" [] "AI" 1 0 [] [] 10 1 4]
      [ClaimRecord.mk "T1" "S1" 1] 5 "T1" (by decide)⟩

/-! ### Ranking: strict descending order with deterministic tie-break -/

lemma qualifiedTopics_sublist (s : StudentProfile) (catalog : List Topic)
    (excluded : List String) : List.Sublist (qualifiedTopics s catalog excluded) catalog :=
  (List.filter_sublist _).trans (List.filter_sublist _)

lemma remainingTopics_sublist (s : StudentProfile) (catalog : List Topic)
    (excluded : List String) : List.Sublist (remainingTopics s catalog excluded) catalog :=
  List.filter_sublist _

lemma mem_remainingTopics_not_qualified {s : StudentProfile} {catalog : List Topic}
    {excluded : List String} {t : Topic}
    (ht : t ∈ remainingTopics s catalog excluded) :
    t.id ∉ (qualifiedTopics s catalog excluded).map Topic.id := by
  unfold remainingTopics at ht
  rw [List.mem_filter] at ht
  have := ht.2
  rw [Bool.and_eq_true] at this
  simpa using this.2

lemma recommendAll_ids_nodup (table : CourseSkillTable) (s : StudentProfile)
    (catalog : List Topic) (excluded : List String)
    (h : (catalog.map Topic.id).Nodup) :
    ((recommendAll table s catalog excluded).map (fun r => r.topic.id)).Nodup := by
  have hq : ((qualifiedTopics s catalog excluded).map Topic.id).Nodup :=
    h.sublist ((qualifiedTopics_sublist s catalog excluded).map Topic.id)
  have hperm : List.Perm (recommendAll table s catalog excluded)
      ((qualifiedTopics s catalog excluded).map
          (fun t => mkRecommendation table s t (score table s t) .RULE_BASED)
        ++ fallbackEntries table s catalog excluded) :=
    List.perm_insertionSort _ _
  rw [(hperm.map (fun r => r.topic.id)).nodup_iff]
  rw [List.map_append]
  have hqmap : ((qualifiedTopics s catalog excluded).map
        (fun t => mkRecommendation table s t (score table s t) .RULE_BASED)).map
      (fun r => r.topic.id) = (qualifiedTopics s catalog excluded).map Topic.id := by
    rw [List.map_map]; rfl
  rw [hqmap]
  unfold fallbackEntries
  split
  · simpa using hq
  · rw [List.map_map]
    have hfmap : ((List.insertionSort (SimLE (mlSimilarity catalog s))
          (remainingTopics s catalog excluded)).take
        (MIN_RECOMMENDATIONS - (qualifiedTopics s catalog excluded).length)).map
        ((fun r : ScoredRecommendation => r.topic.id)
          ∘ (fun t => mkRecommendation table s t (mlSimilarity catalog s t) .ML_FALLBACK))
        = ((List.insertionSort (SimLE (mlSimilarity catalog s))
            (remainingTopics s catalog excluded)).take
          (MIN_RECOMMENDATIONS - (qualifiedTopics s catalog excluded).length)).map
          Topic.id := rfl
    rw [hfmap]
    have hrem : ((remainingTopics s catalog excluded).map Topic.id).Nodup :=
      h.sublist ((remainingTopics_sublist s catalog excluded).map Topic.id)
    have hsortnd : ((List.insertionSort (SimLE (mlSimilarity catalog s))
        (remainingTopics s catalog excluded)).map Topic.id).Nodup :=
      ((List.perm_insertionSort _ _).map Topic.id).nodup_iff.2 hrem
    have htakend : (((List.insertionSort (SimLE (mlSimilarity catalog s))
        (remainingTopics s catalog excluded)).take
        (MIN_RECOMMENDATIONS - (qualifiedTopics s catalog excluded).length)).map
        Topic.id).Nodup :=
      hsortnd.sublist ((List.take_sublist _ _).map Topic.id)
    refine hq.append htakend ?_
    intro a ha hb
    rcases List.mem_map.1 hb with ⟨t, hts, rfl⟩
    have htrem : t ∈ remainingTopics s catalog excluded :=
      (List.perm_insertionSort _ _).mem_iff.1 ((List.take_sublist _ _).mem hts)
    exact mem_remainingTopics_not_qualified htrem ha

/-- C6: under the catalog invariant that topic identifiers are unique, the
list returned by `recommend` is sorted strictly descending by match score,
with equal scores appearing in strictly ascending topic-identifier order. -/
theorem recommend_sorted (table : CourseSkillTable) (s : StudentProfile)
    (catalog : List Topic) (excluded : List String) (count : Nat)
    (h : (catalog.map Topic.id).Nodup) :
    (recommend table s catalog excluded count).Pairwise
      (fun a b => b.matchScore < a.matchScore
        ∨ (a.matchScore = b.matchScore ∧ a.topic.id < b.topic.id)) := by
  have hsorted : (recommendAll table s catalog excluded).Pairwise RankLE :=
    List.sorted_insertionSort RankLE _
  have htake : (recommend table s catalog excluded count).Pairwise RankLE :=
    hsorted.sublist (List.take_sublist _ _)
  have hnd : ((recommend table s catalog excluded count).map
      (fun r => r.topic.id)).Nodup :=
    (recommendAll_ids_nodup table s catalog excluded h).sublist
      ((List.take_sublist _ _).map _)
  have hne : (recommend table s catalog excluded count).Pairwise
      (fun a b => a.topic.id ≠ b.topic.id) :=
    List.pairwise_map.1 hnd
  refine (List.pairwise_and_iff.2 ⟨htake, hne⟩).imp ?_
  intro a b hab
  rcases hab with ⟨hlt | ⟨heq, hle⟩, hne2⟩
  · exact Or.inl hlt
  · exact Or.inr ⟨heq, lt_of_le_of_ne hle hne2⟩

/-- C6 witness: three trivially qualified topics tie at the same match score
and come back in ascending identifier order. -/
theorem recommend_sorted_witness :
    (([Topic.mk "T1" "A" [] "AI" 1 0 [] [] 10 1 4,
        Topic.mk "T2" "B" [] "AI" 1 0 [] [] 10 1 4,
        Topic.mk "T3" "C" [] "AI" 1 0 [] [] 10 1 4].map Topic.id).Nodup)
      ∧ (recommend [] (StudentProfile.mk "S1" "Alice" 3 "CS" 4 20 2 [] [] [] [])
          [Topic.mk "T1" "A" [] "AI" 1 0 [] [] 10 1 4,
            Topic.mk "T2" "B" [] "AI" 1 0 [] [] 10 1 4,
            Topic.mk "T3" "C" [] "AI" 1 0 [] [] 10 1 4] [] 5).Pairwise
          (fun a b => b.matchScore < a.matchScore
            ∨ (a.matchScore = b.matchScore ∧ a.topic.id < b.topic.id)) :=
  ⟨by decide,
    recommend_sorted [] (StudentProfile.mk "S1" "Alice" 3 "CS" 4 20 2 [] [] [] [])
      [Topic.mk "T1" "A" [] "AI" 1 0 [] [] 10 1 4,
        Topic.mk "T2" "B" [] "AI" 1 0 [] [] 10 1 4,
        Topic.mk "T3" "C" [] "AI" 1 0 [] [] 10 1 4] [] 5 (by decide)⟩

/-! ### Frontend: the created student id is always a fresh UUID -/

/-- C10: the request body `api.createStudent` sends carries the freshly
generated `crypto.randomUUID()` value as its `id`, and the caller-supplied id
— including the required Student ID the add-student form collects and passes
through `handleSubmit` — is discarded and never transmitted: the body is
identical whatever id the caller supplied. -/
theorem createStudent_discards_caller_id (formData : StudentJson)
    (otherId freshId : String) (skills : List Skill) (interests : List Interest)
    (courses : List String) (maxWeeklyHours teamSize : Nat)
    (preferredDomains : List String) :
    (createStudentBody
        (handleSubmitStudent formData skills interests courses maxWeeklyHours
          teamSize preferredDomains) freshId).id = freshId
      ∧ createStudentBody
            (handleSubmitStudent { formData with id := otherId } skills interests
              courses maxWeeklyHours teamSize preferredDomains) freshId
          = createStudentBody
            (handleSubmitStudent formData skills interests courses maxWeeklyHours
              teamSize preferredDomains) freshId
      ∧ (createStudentBody formData freshId).id = freshId
      ∧ createStudentBody { formData with id := otherId } freshId
          = createStudentBody formData freshId :=
  ⟨rfl, rfl, rfl, rfl⟩

end FYP
